import Mathlib

/-!
Shallow embedding of `agent.py` from the image-predictor repository.

Pure Python functions become Lean functions; the filesystem side effects of
`handle_image` and `scan_existing_and_process` become explicit state passing
over `FSState`, with raised exceptions modelled by `Except`.  Python floats
are modelled as rationals (the claims under study are structural, not about
rounding).  Python `bool` is a subclass of `int`, so `isinstance(x, (int,
float))` accepts booleans; `isNumeric` reproduces that.
-/

namespace ImageAgent

/-- JSON values as produced by `resp.json()`: Python dicts become association
lists (JSON decoding never produces duplicate keys), booleans stay a separate
constructor exactly as Python keeps `True` distinct from `1`. -/
inductive Json where
  | null : Json
  | bool : Bool → Json
  | num : ℚ → Json
  | str : String → Json
  | arr : List Json → Json
  | obj : List (String × Json) → Json

/-- Dictionary lookup, `d[k]` / `k in d`. -/
def jlookup : List (String × Json) → String → Option Json
  | [], _ => none
  | (k, v) :: rest, key => if k = key then some v else jlookup rest key

/-- Models Python `isinstance(x, (int, float))`.  `bool` is a subclass of
`int` in Python, so booleans pass this test. -/
def isNumeric : Json → Bool
  | Json.num _ => true
  | Json.bool _ => true
  | _ => false

/-- Models Python `float(x)` on values passing `isNumeric`:
`float(True) = 1.0`, `float(False) = 0.0`. -/
def toRat : Json → ℚ
  | Json.num q => q
  | Json.bool b => if b then 1 else 0
  | _ => 0

/-- The key priority list `("confidence", "score", "probability")` from
`extract_max_confidence`. -/
def confKeys : List String := ["confidence", "score", "probability"]

/-- One step of the inner key loop of `extract_max_confidence`:
`if key in d and isinstance(d[key], (int, float)): max_conf = max(max_conf, float(d[key]))`. -/
def keyStep (d : List (String × Json)) (m : ℚ) (key : String) : ℚ :=
  match jlookup d key with
  | some v => if isNumeric v then max m (toRat v) else m
  | none => m

/-- The inner key loop over `confKeys` for one element `d`. -/
def keyFold (d : List (String × Json)) (m : ℚ) : ℚ :=
  confKeys.foldl (keyStep d) m

/-- The element loop shared by the `detections` and `predictions` branches of
`extract_max_confidence`: elements that are not dicts are skipped. -/
def scanItems : List Json → ℚ → ℚ
  | [], m => m
  | d :: rest, m =>
    match d with
    | Json.obj kvs => scanItems rest (keyFold kvs m)
    | _ => scanItems rest m

/-- The `elif "predictions" in resp_json and isinstance(resp_json["predictions"], list)`
branch (agent.py lines 43-48); falls through to `0.0` otherwise. -/
def extractPreds (kvs : List (String × Json)) : ℚ :=
  match jlookup kvs "predictions" with
  | some (Json.arr ps) => scanItems ps 0
  | _ => 0

/-- `extract_max_confidence` (agent.py lines 30-49). -/
def extract_max_confidence : Json → ℚ
  | Json.obj kvs =>
    match jlookup kvs "detections" with
    | some (Json.arr ds) => scanItems ds 0
    | _ =>
      match jlookup kvs "confidence" with
      | some v => if isNumeric v then toRat v else extractPreds kvs
      | none => extractPreds kvs
  | _ => 0

/-- The value a single element contributes in the claim's reading: the numeric
values of keys `confidence`, `score`, `probability` of a mapping element. -/
def pickVal (d : List (String × Json)) (key : String) : Option ℚ :=
  match jlookup d key with
  | some v => if isNumeric v then some (toRat v) else none
  | none => none

/-- All numeric confidence-bearing values of one element (empty for
non-mapping elements). -/
def elemVals : Json → List ℚ
  | Json.obj kvs => confKeys.filterMap (pickVal kvs)
  | _ => []

/-- All numeric confidence-bearing values across a list of elements. -/
def allVals : List Json → List ℚ
  | [] => []
  | d :: rest => elemVals d ++ allVals rest

/-- The `detections` list of a mapping, when present with a sequence value. -/
def detectionsList (kvs : List (String × Json)) : Option (List Json) :=
  match jlookup kvs "detections" with
  | some (Json.arr ds) => some ds
  | _ => none

/-- The top-level `confidence` value of a mapping, when present and numeric. -/
def numericConfidence (kvs : List (String × Json)) : Option ℚ :=
  match jlookup kvs "confidence" with
  | some v => if isNumeric v then some (toRat v) else none
  | none => none

/-- The numeric values reachable through a `predictions` sequence of a
mapping (empty when `predictions` is absent or not a sequence). -/
def predictionsVals (kvs : List (String × Json)) : List ℚ :=
  match jlookup kvs "predictions" with
  | some (Json.arr ps) => allVals ps
  | _ => []

/-- Whether a JSON value is a mapping. -/
def Json.isObj : Json → Bool
  | Json.obj _ => true
  | _ => false

/-- Split a character list at `/` separators (the behaviour of
`s.split("/")` on POSIX path strings). -/
def splitSlash : List Char → List Char → List String
  | [], acc => [String.mk acc.reverse]
  | '/' :: rest, acc => String.mk acc.reverse :: splitSlash rest []
  | c :: rest, acc => splitSlash rest (c :: acc)

/-- ASCII lowercasing of a string, the effect of Python `str.lower()` on the
extension strings involved here. -/
def lowerString (s : String) : String :=
  String.mk (s.toList.map Char.toLower)

/-- Path components in pathlib's parsing: empty components and `.` are
dropped. -/
def pathComponents (s : String) : List String :=
  (splitSlash s.toList []).filter (fun c => !(c == "") && !(c == "."))

/-- pathlib `Path.name`: the final path component. -/
def pyName (s : String) : String :=
  (pathComponents s).getLastD ""

/-- pathlib `Path.suffix`: `name[i:]` where `i = name.rfind(".")`, provided
`0 < i < len(name) - 1`, else the empty string. -/
def pySuffix (s : String) : String :=
  match (pyName s).toList.reverse.span (fun c => c != '.') with
  | ([], _) => ""
  | (_, ['.']) => ""
  | (ext, '.' :: _ :: _) => String.mk ('.' :: ext.reverse)
  | (_, _) => ""

/-- pathlib `Path.stem`: `name[:i]` under the same condition as `pySuffix`,
else the whole name. -/
def pyStem (s : String) : String :=
  match (pyName s).toList.reverse.span (fun c => c != '.') with
  | ([], _) => pyName s
  | (_, ['.']) => pyName s
  | (_, '.' :: c :: rest) => String.mk ((c :: rest).reverse)
  | (_, _) => pyName s

/-- `is_image_file` (agent.py lines 17-18). -/
def is_image_file (path : String) : Bool :=
  [".jpg", ".jpeg", ".png", ".bmp", ".gif"].contains (lowerString (pySuffix path))

/-- The tenacity retry loop around one fallible call: `attempt` is the
1-based attempt number, `remaining` the number of retries still allowed by
`stop_after_attempt`.  Returns the attempt count actually performed together
with the final outcome (the last attempt's error is re-raised). -/
def retryCall (f : Nat → Except String Json) : Nat → Nat → Nat × Except String Json
  | attempt, 0 => (attempt, f attempt)
  | attempt, Nat.succ remaining =>
    match f attempt with
    | Except.ok j => (attempt, Except.ok j)
    | Except.error _ => retryCall f (attempt + 1) remaining

/-- `send_image` (agent.py lines 21-27): the whole send is governed by
`stop_after_attempt(3)`, i.e. at most 3 attempts. -/
def send_image (f : Nat → Except String Json) : Nat × Except String Json :=
  retryCall f 1 2

/-- The results record `{"image": str(image_path), "response": resp}`
(agent.py line 63). -/
def resultJson (image : String) (resp : Json) : Json :=
  Json.obj [("image", Json.str image), ("response", resp)]

/-- The review record `{"image": ..., "response": ..., "max_confidence": ...}`
(agent.py line 72). -/
def reviewJson (image : String) (resp : Json) (max_conf : ℚ) : Json :=
  Json.obj [("image", Json.str image), ("response", resp),
            ("max_confidence", Json.num max_conf)]

/-- Filesystem state: files written (path to JSON content, overwriting),
directories created, and the trace of images handed to `handle_image`
(the `Processing %s` log line). -/
structure FSState where
  files : List (String × Json)
  dirs : List String
  processed : List String

/-- Write a file, overwriting an existing one of the same path. -/
def setFile : List (String × Json) → String → Json → List (String × Json)
  | [], p, j => [(p, j)]
  | (q, v) :: rest, p, j =>
    if q = p then (p, j) :: rest else (q, v) :: setFile rest p j

/-- `mkdir(parents=True, exist_ok=True)`: record the directory if new. -/
def insertDir (dirs : List String) (d : String) : List String :=
  if dirs.contains d then dirs else dirs ++ [d]

/-- The run configuration together with the behaviour of the outside world:
`endpoint img n` is the outcome of the n-th upload attempt for image `img`;
`mkdirFails` / `writeFails` say which filesystem operations raise. -/
structure Env where
  endpoint : String → Nat → Except String Json
  threshold : ℚ
  review_dir : String
  results_dir : String
  mkdirFails : String → Bool
  writeFails : String → Bool

/-- `results_dir / (image_path.stem + ".json")` (agent.py line 61). -/
def resultsPath (env : Env) (image : String) : String :=
  env.results_dir ++ "/" ++ pyStem image ++ ".json"

/-- `review_dir / (image_path.stem + ".json")` (agent.py line 70). -/
def reviewPath (env : Env) (image : String) : String :=
  env.review_dir ++ "/" ++ pyStem image ++ ".json"

/-- `handle_image` (agent.py lines 52-73).  The `try`/`except` covers only
the `send_image` call (lines 54-58); an exception raised by any of the
directory creations or file writes propagates to the caller as
`Except.error`. -/
def handle_image (env : Env) (image_path : String) (st : FSState) :
    Except String FSState :=
  let st1 : FSState := { st with processed := st.processed ++ [image_path] }
  match (send_image (env.endpoint image_path)).2 with
  | Except.error _ => Except.ok st1
  | Except.ok resp =>
    if env.mkdirFails env.results_dir then
      Except.error ("mkdir " ++ env.results_dir)
    else
      let st2 : FSState := { st1 with dirs := insertDir st1.dirs env.results_dir }
      if env.writeFails (resultsPath env image_path) then
        Except.error ("write " ++ resultsPath env image_path)
      else
        let st3 : FSState :=
          { st2 with
            files := setFile st2.files (resultsPath env image_path)
                       (resultJson image_path resp) }
        let max_conf : ℚ := extract_max_confidence resp
        if max_conf < env.threshold then
          if env.mkdirFails env.review_dir then
            Except.error ("mkdir " ++ env.review_dir)
          else
            let st4 : FSState :=
              { st3 with dirs := insertDir st3.dirs env.review_dir }
            if env.writeFails (reviewPath env image_path) then
              Except.error ("write " ++ reviewPath env image_path)
            else
              Except.ok
                { st4 with
                  files := setFile st4.files (reviewPath env image_path)
                             (reviewJson image_path resp max_conf) }
        else Except.ok st3

/-- A direct entry of the watched directory: its path and whether it is a
regular file (`p.is_file()`). -/
structure Entry where
  path : String
  isFile : Bool

/-- The filter of the scan loop: `p.is_file() and is_image_file(p)`. -/
def keepEntry (e : Entry) : Bool :=
  e.isFile && is_image_file e.path

/-- Lexicographic comparison of character lists by code point, the order in
which Python compares path strings. -/
def charListLe : List Char → List Char → Bool
  | [], _ => true
  | _ :: _, [] => false
  | a :: as, b :: bs =>
    if a.toNat < b.toNat then true
    else if b.toNat < a.toNat then false
    else charListLe as bs

/-- String comparison used by `sorted` over paths. -/
def strLe (a b : String) : Bool :=
  charListLe a.toList b.toList

theorem charListLe_total (as : List Char) :
    ∀ bs, charListLe as bs = true ∨ charListLe bs as = true := by
  induction as with
  | nil => intro bs; left; rfl
  | cons a as ih =>
    intro bs
    cases bs with
    | nil => right; rfl
    | cons b bs =>
      by_cases hab : a.toNat < b.toNat
      · left; simp [charListLe, hab]
      · by_cases hba : b.toNat < a.toNat
        · right; simp [charListLe, hba]
        · cases ih bs with
          | inl h => left; simp [charListLe, hab, hba, h]
          | inr h => right; simp [charListLe, hab, hba, h]

theorem charListLe_trans (as : List Char) :
    ∀ bs cs, charListLe as bs = true → charListLe bs cs = true →
      charListLe as cs = true := by
  induction as with
  | nil => intro bs cs _ _; rfl
  | cons a as ih =>
    intro bs cs h1 h2
    cases bs with
    | nil => simp [charListLe] at h1
    | cons b bs =>
      cases cs with
      | nil => simp [charListLe] at h2
      | cons c cs =>
        simp only [charListLe] at h1 h2 ⊢
        by_cases hab : a.toNat < b.toNat
        · by_cases hbc : b.toNat < c.toNat
          · have hac : a.toNat < c.toNat := by omega
            simp [hac]
          · by_cases hcb : c.toNat < b.toNat
            · simp [hbc, hcb] at h2
            · have hac : a.toNat < c.toNat := by omega
              simp [hac]
        · by_cases hba : b.toNat < a.toNat
          · simp [hab, hba] at h1
          · by_cases hbc : b.toNat < c.toNat
            · have hac : a.toNat < c.toNat := by omega
              simp [hac]
            · by_cases hcb : c.toNat < b.toNat
              · simp [hbc, hcb] at h2
              · have h1r : charListLe as bs = true := by simpa [hab, hba] using h1
                have h2r : charListLe bs cs = true := by simpa [hbc, hcb] using h2
                have hac : ¬a.toNat < c.toNat := by omega
                have hca : ¬c.toNat < a.toNat := by omega
                simp [hac, hca, ih bs cs h1r h2r]

/-- Sort order of `sorted(watch_dir.iterdir())`: paths compare as strings. -/
def byName (a b : Entry) : Prop := strLe a.path b.path = true

instance : DecidableRel byName := fun a b =>
  instDecidableEqBool (strLe a.path b.path) true

instance : IsTotal Entry byName :=
  ⟨fun a b => charListLe_total a.path.toList b.path.toList⟩

instance : IsTrans Entry byName :=
  ⟨fun a b c h1 h2 => charListLe_trans a.path.toList b.path.toList c.path.toList h1 h2⟩

/-- `sorted(...)` over directory entries. -/
def sortByName (es : List Entry) : List Entry :=
  List.insertionSort byName es

/-- The body of the scan loop (agent.py lines 92-94): each kept entry is
processed; an exception escaping `handle_image` aborts the remaining
iterations. -/
def processEntries (env : Env) : List Entry → FSState → Except String FSState
  | [], st => Except.ok st
  | e :: rest, st =>
    if keepEntry e then
      match handle_image env e.path st with
      | Except.error err => Except.error err
      | Except.ok st2 => processEntries env rest st2
    else processEntries env rest st

/-- `scan_existing_and_process` (agent.py lines 91-94): `watch` is `none`
when `watch_dir.exists()` is false, in which case the loop runs over `[]`. -/
def scan_existing_and_process (env : Env) (watch : Option (List Entry))
    (st : FSState) : Except String FSState :=
  processEntries env (sortByName (watch.getD [])) st

/-- Sequential processing of a list of entries with no filtering, used to
state what the scan loop does to the entries it keeps. -/
def processAll (env : Env) : List Entry → FSState → Except String FSState
  | [], st => Except.ok st
  | e :: rest, st =>
    match handle_image env e.path st with
    | Except.error err => Except.error err
    | Except.ok st2 => processAll env rest st2

/-- An empty filesystem state. -/
def st0 : FSState := { files := [], dirs := [], processed := [] }

/-- An endpoint that fails on every attempt. -/
def envFail : Env :=
  { endpoint := fun _ _ => Except.error "connection refused",
    threshold := 1, review_dir := "for_review", results_dir := "results",
    mkdirFails := fun _ => false, writeFails := fun _ => false }

/-- A low-confidence response used for exercising the review branch. -/
def respLow : Json := Json.obj [("confidence", Json.num 0)]

/-- A healthy environment: uploads succeed, no filesystem operation fails. -/
def envOk : Env :=
  { endpoint := fun _ _ => Except.ok respLow, threshold := 1,
    review_dir := "for_review", results_dir := "results",
    mkdirFails := fun _ => false, writeFails := fun _ => false }

/-- An environment in which writing `results/a.json` raises an I/O error
while uploads succeed. -/
def envBad : Env :=
  { endpoint := fun _ _ => Except.ok (Json.obj [("confidence", Json.num 1)]),
    threshold := 0, review_dir := "for_review", results_dir := "results",
    mkdirFails := fun _ => false, writeFails := fun p => p == "results/a.json" }

/-- Two image files present in the watched directory. -/
def entriesBad : List Entry :=
  [{ path := "watch/a.jpg", isFile := true }, { path := "watch/b.jpg", isFile := true }]

/-- An environment in which every directory creation raises an I/O error. -/
def envMkdirFail : Env :=
  { endpoint := fun _ _ => Except.ok (Json.obj []), threshold := 0,
    review_dir := "for_review", results_dir := "results",
    mkdirFails := fun _ => true, writeFails := fun _ => false }

/-- A concrete `detections` element list. -/
def detEx : List Json :=
  [Json.obj [("score", Json.num 3)], Json.obj [("probability", Json.num 2)]]

/-- A concrete response carrying `detEx` under `detections`. -/
def detKvs : List (String × Json) := [("detections", Json.arr detEx)]

/-- A concrete response with a negative bare `confidence`. -/
def confNegKvs : List (String × Json) := [("confidence", Json.num (-2))]

/-- A running maximum never drops below its starting value. -/
theorem le_foldl_max (l : List ℚ) : ∀ m : ℚ, m ≤ l.foldl max m := by
  induction l with
  | nil => intro m; exact le_refl m
  | cons a l ih => intro m; exact le_trans (le_max_left m a) (ih (max m a))

/-- One key step of the loop is the max-update by the value `pickVal`
selects, when it selects one. -/
theorem keyStep_pickVal (d : List (String × Json)) (m : ℚ) (key : String) :
    keyStep d m key =
      match pickVal d key with
      | some q => max m q
      | none => m := by
  unfold keyStep pickVal
  cases jlookup d key with
  | none => rfl
  | some v => cases hv : isNumeric v <;> simp [hv]

/-- The key loop over any key list is the running maximum over the values
those keys contribute. -/
theorem foldl_keyStep (d : List (String × Json)) (keys : List String) :
    ∀ m : ℚ, keys.foldl (keyStep d) m = (keys.filterMap (pickVal d)).foldl max m := by
  induction keys with
  | nil => intro m; rfl
  | cons k ks ih =>
    intro m
    rw [List.foldl_cons, List.filterMap_cons, keyStep_pickVal]
    cases pickVal d k with
    | none => exact ih m
    | some q => simp only [List.foldl_cons]; exact ih (max m q)

/-- The element loop of `extract_max_confidence` computes the running
maximum over all numeric confidence-bearing values of all mapping
elements. -/
theorem scanItems_foldl (ds : List Json) :
    ∀ m : ℚ, scanItems ds m = (allVals ds).foldl max m := by
  induction ds with
  | nil => intro m; rfl
  | cons d rest ih =>
    intro m
    cases d <;>
      simp [scanItems, allVals, elemVals, keyFold, foldl_keyStep, List.foldl_append, ih]

/-- The scan loop processes exactly the entries kept by the classifier
filter, in order. -/
theorem processEntries_filter (env : Env) (l : List Entry) :
    ∀ st : FSState, processEntries env l st = processAll env (l.filter keepEntry) st := by
  induction l with
  | nil => intro st; rfl
  | cons e rest ih =>
    intro st
    by_cases hk : keepEntry e = true
    · simp only [processEntries, processAll, hk, List.filter_cons, if_true, ite_true]
      cases hh : handle_image env e.path st with
      | error err => simp [hh, processAll]
      | ok st2 => simp [hh, processAll, ih st2]
    · have hk2 : keepEntry e = false := by simpa using hk
      simp [processEntries, processAll, hk2, List.filter_cons, ih st]

/-- The `Json.obj` case of `extract_max_confidence`, with the branching
exposed at the top level. -/
theorem extract_obj (kvs : List (String × Json)) :
    extract_max_confidence (Json.obj kvs) =
      match jlookup kvs "detections" with
      | some (Json.arr ds) => scanItems ds 0
      | _ =>
        match jlookup kvs "confidence" with
        | some v => if isNumeric v then toRat v else extractPreds kvs
        | none => extractPreds kvs := rfl

/-- Inversion for `numericConfidence kvs = some q`. -/
theorem numericConfidence_eq_some (kvs : List (String × Json)) (q : ℚ)
    (h : numericConfidence kvs = some q) :
    ∃ v, jlookup kvs "confidence" = some v ∧ isNumeric v = true ∧ toRat v = q := by
  unfold numericConfidence at h
  cases hc : jlookup kvs "confidence" with
  | none => rw [hc] at h; cases h
  | some v =>
    rw [hc] at h
    cases hn : isNumeric v with
    | false => simp [hn] at h
    | true => exact ⟨v, rfl, hn, by simpa [hn] using h⟩

/-- Inversion for `numericConfidence kvs = none`. -/
theorem numericConfidence_eq_none (kvs : List (String × Json))
    (h : numericConfidence kvs = none) :
    ∀ v, jlookup kvs "confidence" = some v → isNumeric v = false := by
  intro v hv
  unfold numericConfidence at h
  rw [hv] at h
  cases hn : isNumeric v with
  | false => rfl
  | true => simp [hn] at h

/-- Inversion for `detectionsList kvs = none`. -/
theorem detectionsList_eq_none (kvs : List (String × Json))
    (h : detectionsList kvs = none) :
    ∀ ds, jlookup kvs "detections" ≠ some (Json.arr ds) := by
  intro ds hds
  unfold detectionsList at h
  rw [hds] at h
  simp at h

/-- The confidence/predictions part of `extract_max_confidence` when the
top-level `confidence` key is present and numeric. -/
theorem extract_inner_some (kvs : List (String × Json)) (v : Json)
    (hc : jlookup kvs "confidence" = some v) (hv : isNumeric v = true) :
    (match jlookup kvs "confidence" with
     | some v => if isNumeric v then toRat v else extractPreds kvs
     | none => extractPreds kvs) = toRat v := by
  rw [hc]
  simp [hv]

/-- The confidence/predictions part of `extract_max_confidence` when no
numeric top-level `confidence` exists. -/
theorem extract_inner_none (kvs : List (String × Json))
    (hconf : numericConfidence kvs = none) :
    (match jlookup kvs "confidence" with
     | some v => if isNumeric v then toRat v else extractPreds kvs
     | none => extractPreds kvs) = extractPreds kvs := by
  cases hc : jlookup kvs "confidence" with
  | none => rfl
  | some v =>
    have hv := numericConfidence_eq_none kvs hconf v hc
    simp [hv]

/-- When no numeric value is reachable through `predictions`, the
`predictions` branch yields 0. -/
theorem extractPreds_eq_zero (kvs : List (String × Json))
    (hpred : predictionsVals kvs = []) : extractPreds kvs = 0 := by
  unfold extractPreds
  unfold predictionsVals at hpred
  cases hp : jlookup kvs "predictions" with
  | none => rfl
  | some j =>
    rw [hp] at hpred
    cases j <;> simp_all [scanItems_foldl]

/-- Claim C4: on a mapping whose `detections` key holds a sequence,
`extract_max_confidence` returns the running maximum, initialised to 0.0,
over the numeric values of keys `confidence`, `score`, `probability` of
every element that is itself a mapping; in particular the result is
nonnegative. -/
theorem C4_detections_running_max (kvs : List (String × Json)) (ds : List Json)
    (h : jlookup kvs "detections" = some (Json.arr ds)) :
    extract_max_confidence (Json.obj kvs) = (allVals ds).foldl max 0 ∧
      0 ≤ extract_max_confidence (Json.obj kvs) := by
  have he : extract_max_confidence (Json.obj kvs) = scanItems ds 0 := by
    rw [extract_obj, h]
  rw [he, scanItems_foldl]
  exact ⟨rfl, le_foldl_max _ 0⟩

/-- Witness for C4 at a concrete two-element `detections` response. -/
theorem C4_witness :
    jlookup detKvs "detections" = some (Json.arr detEx) ∧
    (extract_max_confidence (Json.obj detKvs) = (allVals detEx).foldl max 0 ∧
      0 ≤ extract_max_confidence (Json.obj detKvs)) ∧
    extract_max_confidence (Json.obj detKvs) = 3 :=
  ⟨rfl, C4_detections_running_max detKvs detEx rfl, by decide⟩

/-- Claim C5: on a mapping with no `detections` sequence and a numeric
top-level `confidence`, `extract_max_confidence` returns that value
verbatim, with no floor at 0.0 (a negative value is returned negative). -/
theorem C5_bare_confidence_verbatim (kvs : List (String × Json)) (q : ℚ)
    (hdet : detectionsList kvs = none)
    (hconf : numericConfidence kvs = some q) :
    extract_max_confidence (Json.obj kvs) = q := by
  obtain ⟨v, hc, hv, hq⟩ := numericConfidence_eq_some kvs q hconf
  rw [extract_obj]
  cases hd : jlookup kvs "detections" with
  | none => exact (extract_inner_some kvs v hc hv).trans hq
  | some j =>
    cases j <;>
      first
        | exact absurd hd (detectionsList_eq_none kvs hdet _)
        | exact (extract_inner_some kvs v hc hv).trans hq

/-- Witness for C5 at a concrete negative `confidence`, showing the
returned score is negative. -/
theorem C5_witness :
    detectionsList confNegKvs = none ∧
    numericConfidence confNegKvs = some (-2) ∧
    extract_max_confidence (Json.obj confNegKvs) = -2 ∧ (-2 : ℚ) < 0 :=
  ⟨rfl, rfl, C5_bare_confidence_verbatim confNegKvs (-2) rfl rfl, by norm_num⟩

/-- Claim C6: a non-mapping input yields 0.0, and so does a mapping with no
`detections` sequence, no numeric `confidence`, and no numeric value
reachable through a `predictions` sequence. -/
theorem C6_unrecognized_returns_zero :
    (∀ j : Json, Json.isObj j = false → extract_max_confidence j = 0) ∧
    (∀ kvs : List (String × Json), detectionsList kvs = none →
      numericConfidence kvs = none → predictionsVals kvs = [] →
      extract_max_confidence (Json.obj kvs) = 0) := by
  constructor
  · intro j h
    cases j <;> simp_all [Json.isObj, extract_max_confidence]
  · intro kvs hdet hconf hpred
    have hz := extractPreds_eq_zero kvs hpred
    rw [extract_obj]
    cases hd : jlookup kvs "detections" with
    | none => exact (extract_inner_none kvs hconf).trans hz
    | some j =>
      cases j <;>
        first
          | exact absurd hd (detectionsList_eq_none kvs hdet _)
          | exact (extract_inner_none kvs hconf).trans hz

/-- Witness for C6: a list input and a mapping with a single unrelated key
both score 0. -/
theorem C6_witness :
    (Json.isObj (Json.arr []) = false ∧ extract_max_confidence (Json.arr []) = 0) ∧
    (detectionsList [("foo", Json.null)] = none ∧
      numericConfidence [("foo", Json.null)] = none ∧
      predictionsVals [("foo", Json.null)] = [] ∧
      extract_max_confidence (Json.obj [("foo", Json.null)]) = 0) :=
  ⟨⟨rfl, C6_unrecognized_returns_zero.1 (Json.arr []) rfl⟩,
    ⟨rfl, rfl, rfl, C6_unrecognized_returns_zero.2 [("foo", Json.null)] rfl rfl rfl⟩⟩

/-- Claim C8: `is_image_file` returns true exactly when the path's
extension (pathlib `suffix`), compared case-insensitively, is one of jpg,
jpeg, png, bmp, gif.  The function is a total Lean function with no error
outcome. -/
theorem C8_is_image_file_iff (p : String) :
    is_image_file p = true ↔
      (lowerString (pySuffix p) = ".jpg" ∨ lowerString (pySuffix p) = ".jpeg" ∨
       lowerString (pySuffix p) = ".png" ∨ lowerString (pySuffix p) = ".bmp" ∨
       lowerString (pySuffix p) = ".gif") := by
  simp [is_image_file, List.contains, List.elem_eq_mem]

/-- Claim C10: booleans count as numeric for the extractor because Python
`bool` is a subclass of `int`: a `confidence` of `true` scores 1.0 in the
bare branch and inside `detections` / `predictions` elements alike. -/
theorem C10_bool_counts_as_numeric :
    extract_max_confidence (Json.obj [("confidence", Json.bool true)]) = 1 ∧
    extract_max_confidence (Json.obj [("detections",
        Json.arr [Json.obj [("confidence", Json.bool true)]])]) = 1 ∧
    extract_max_confidence (Json.obj [("predictions",
        Json.arr [Json.obj [("score", Json.bool true)]])]) = 1 :=
  ⟨rfl, by decide, by decide⟩

/-- Claim C1: when the upload succeeds (and the involved filesystem
operations do not raise), `handle_image` writes exactly one results record
to `<results-dir>/<stem>.json`, and additionally writes the review record
to `<review-dir>/<stem>.json` precisely when the extracted score is
strictly below the threshold; no other file is touched. -/
theorem C1_results_and_review (env : Env) (img : String) (st : FSState) (resp : Json)
    (hsend : (send_image (env.endpoint img)).2 = Except.ok resp)
    (hm1 : env.mkdirFails env.results_dir = false)
    (hw1 : env.writeFails (resultsPath env img) = false)
    (hm2 : env.mkdirFails env.review_dir = false)
    (hw2 : env.writeFails (reviewPath env img) = false) :
    ∃ st2 : FSState, handle_image env img st = Except.ok st2 ∧
      st2.files =
        (if extract_max_confidence resp < env.threshold then
          setFile (setFile st.files (resultsPath env img) (resultJson img resp))
            (reviewPath env img)
            (reviewJson img resp (extract_max_confidence resp))
        else
          setFile st.files (resultsPath env img) (resultJson img resp)) := by
  by_cases hc : extract_max_confidence resp < env.threshold
  · refine ⟨FSState.mk
      (setFile (setFile st.files (resultsPath env img) (resultJson img resp))
        (reviewPath env img) (reviewJson img resp (extract_max_confidence resp)))
      (insertDir (insertDir st.dirs env.results_dir) env.review_dir)
      (st.processed ++ [img]), ?_, ?_⟩
    · simp [handle_image, hsend, hm1, hw1, hm2, hw2, hc]
    · simp [hc]
  · refine ⟨FSState.mk
      (setFile st.files (resultsPath env img) (resultJson img resp))
      (insertDir st.dirs env.results_dir)
      (st.processed ++ [img]), ?_, ?_⟩
    · simp [handle_image, hsend, hm1, hw1, hc]
    · simp [hc]

/-- Witness for C1: a low-confidence upload for `images/cat.jpg` writes the
results record and the review record. -/
theorem C1_witness :
    (send_image (envOk.endpoint "images/cat.jpg")).2 = Except.ok respLow ∧
    (∃ st2 : FSState, handle_image envOk "images/cat.jpg" st0 = Except.ok st2 ∧
      st2.files =
        (if extract_max_confidence respLow < envOk.threshold then
          setFile (setFile st0.files (resultsPath envOk "images/cat.jpg")
              (resultJson "images/cat.jpg" respLow))
            (reviewPath envOk "images/cat.jpg")
            (reviewJson "images/cat.jpg" respLow (extract_max_confidence respLow))
        else
          setFile st0.files (resultsPath envOk "images/cat.jpg")
            (resultJson "images/cat.jpg" respLow))) :=
  ⟨rfl, C1_results_and_review envOk "images/cat.jpg" st0 respLow rfl rfl rfl rfl rfl⟩

/-- Claim C2 is refuted by this concrete run: with an endpoint that
succeeds and a filesystem on which writing `results/a.json` raises, the
exception escapes `handle_image` and the whole startup scan aborts with
that error instead of continuing with `watch/b.jpg`. -/
theorem C2_counterexample :
    handle_image envBad "watch/a.jpg" st0 = Except.error "write results/a.json" ∧
    scan_existing_and_process envBad (some entriesBad) st0 =
      Except.error "write results/a.json" :=
  ⟨rfl, rfl⟩

/-- Claim C2 (amended): only upload failures are caught at the per-image
boundary; an I/O error raised while creating the results or review
directory or writing the result or review file propagates out of
`handle_image` and aborts the scan, so subsequent images are not
processed. -/
theorem C2_amended_io_errors_propagate (env : Env) (e : Entry) (rest : List Entry)
    (st : FSState) (resp : Json)
    (hsend : (send_image (env.endpoint e.path)).2 = Except.ok resp)
    (hkeep : keepEntry e = true)
    (hfail : env.mkdirFails env.results_dir = true ∨
             env.writeFails (resultsPath env e.path) = true ∨
             (extract_max_confidence resp < env.threshold ∧
               (env.mkdirFails env.review_dir = true ∨
                env.writeFails (reviewPath env e.path) = true))) :
    ∃ msg : String, handle_image env e.path st = Except.error msg ∧
      processEntries env (e :: rest) st = Except.error msg := by
  suffices h : ∃ msg, handle_image env e.path st = Except.error msg by
    obtain ⟨msg, hh⟩ := h
    exact ⟨msg, hh, by simp [processEntries, hkeep, hh]⟩
  by_cases m1 : env.mkdirFails env.results_dir = true
  · exact ⟨"mkdir " ++ env.results_dir, by simp [handle_image, hsend, m1]⟩
  · have m1f : env.mkdirFails env.results_dir = false := by simpa using m1
    by_cases w1 : env.writeFails (resultsPath env e.path) = true
    · exact ⟨"write " ++ resultsPath env e.path,
        by simp [handle_image, hsend, m1f, w1]⟩
    · have w1f : env.writeFails (resultsPath env e.path) = false := by simpa using w1
      rcases hfail with h | h | ⟨hc, h2⟩
      · exact absurd h m1
      · exact absurd h w1
      · by_cases m2 : env.mkdirFails env.review_dir = true
        · exact ⟨"mkdir " ++ env.review_dir,
            by simp [handle_image, hsend, m1f, w1f, hc, m2]⟩
        · have m2f : env.mkdirFails env.review_dir = false := by simpa using m2
          have w2 : env.writeFails (reviewPath env e.path) = true := by
            rcases h2 with h2 | h2
            · exact absurd h2 m2
            · exact h2
          exact ⟨"write " ++ reviewPath env e.path,
            by simp [handle_image, hsend, m1f, w1f, hc, m2f, w2]⟩

/-- Witness for the amended C2: a failing `mkdir` of the results directory
aborts the scan of a one-image directory. -/
theorem C2_amended_witness :
    (send_image (envMkdirFail.endpoint "watch/c.jpg")).2 = Except.ok (Json.obj []) ∧
    keepEntry { path := "watch/c.jpg", isFile := true } = true ∧
    envMkdirFail.mkdirFails envMkdirFail.results_dir = true ∧
    (∃ msg : String,
      handle_image envMkdirFail "watch/c.jpg" st0 = Except.error msg ∧
      processEntries envMkdirFail ({ path := "watch/c.jpg", isFile := true } :: []) st0 =
        Except.error msg) :=
  ⟨rfl, rfl, rfl,
    C2_amended_io_errors_propagate envMkdirFail
      { path := "watch/c.jpg", isFile := true } [] st0 (Json.obj []) rfl rfl (Or.inl rfl)⟩

/-- Claim C3: when every upload attempt fails, `send_image` performs
exactly 3 attempts and surfaces the final error; `handle_image` catches
it, writes nothing (files and dirs unchanged), returns normally, and the
scan loop continues with the remaining entries. -/
theorem C3_retries_exhausted (env : Env) (e : Entry) (st : FSState) (rest : List Entry)
    (hfail : ∀ n : Nat, ∃ err : String, env.endpoint e.path n = Except.error err)
    (hkeep : keepEntry e = true) :
    (send_image (env.endpoint e.path)).1 = 3 ∧
    (∃ err : String, (send_image (env.endpoint e.path)).2 = Except.error err) ∧
    handle_image env e.path st =
      Except.ok { st with processed := st.processed ++ [e.path] } ∧
    processEntries env (e :: rest) st =
      processEntries env rest { st with processed := st.processed ++ [e.path] } := by
  obtain ⟨e1, h1⟩ := hfail 1
  obtain ⟨e2, h2⟩ := hfail 2
  obtain ⟨e3, h3⟩ := hfail 3
  have hsend : send_image (env.endpoint e.path) = (3, Except.error e3) := by
    simp [send_image, retryCall, h1, h2, h3]
  have hh : handle_image env e.path st =
      Except.ok { st with processed := st.processed ++ [e.path] } := by
    simp [handle_image, hsend]
  refine ⟨by rw [hsend], ⟨e3, by rw [hsend]⟩, hh, ?_⟩
  simp [processEntries, hkeep, hh]

/-- Witness for C3 at an endpoint that always refuses the connection. -/
theorem C3_witness :
    (∀ n : Nat, ∃ err : String,
      envFail.endpoint "images/x.jpg" n = Except.error err) ∧
    keepEntry { path := "images/x.jpg", isFile := true } = true ∧
    ((send_image (envFail.endpoint "images/x.jpg")).1 = 3 ∧
     (∃ err : String,
       (send_image (envFail.endpoint "images/x.jpg")).2 = Except.error err) ∧
     handle_image envFail "images/x.jpg" st0 =
       Except.ok { st0 with processed := st0.processed ++ ["images/x.jpg"] } ∧
     processEntries envFail ({ path := "images/x.jpg", isFile := true } :: []) st0 =
       processEntries envFail []
         { st0 with processed := st0.processed ++ ["images/x.jpg"] }) :=
  ⟨fun _ => ⟨"connection refused", rfl⟩, rfl,
    C3_retries_exhausted envFail { path := "images/x.jpg", isFile := true } st0 []
      (fun _ => ⟨"connection refused", rfl⟩) rfl⟩

/-- Claim C7: the startup scan is the sequential processing, one at a
time, of exactly the sorted-by-name direct entries that are files passing
the classifier, and the sorted listing is a name-sorted permutation of the
directory's entries. -/
theorem C7_scan_sorted_filtered (env : Env) (entries : List Entry) (st : FSState) :
    scan_existing_and_process env (some entries) st =
      processAll env ((sortByName entries).filter keepEntry) st ∧
    (sortByName entries).Perm entries ∧
    List.Sorted byName (sortByName entries) :=
  ⟨processEntries_filter env (sortByName entries) st,
   List.perm_insertionSort byName entries,
   List.sorted_insertionSort byName entries⟩

/-- Claim C9: when the watch directory does not exist, the scan iterates
over an empty sequence: no error, no image processed, state unchanged. -/
theorem C9_missing_watch_dir (env : Env) (st : FSState) :
    scan_existing_and_process env none st = Except.ok st := rfl

end ImageAgent
